import Mathlib

/-!
Verification of the multi-agent auction learning core.

Shallow embedding of the repository's learning components:
* `ReplayBuffer` embeds `src/buffer.py` (class `ReplayBuffer`).  The five
  parallel numpy arrays (`state_memory`, `action_memory`, `reward_memory`,
  `others_states`, `others_actions`) are always written and read at the same
  row index, so they are combined into a single list of transition records of
  an abstract element type `α`.
* `MADDPGMem` embeds the buffer-owning part of `src/maddpg.py` (class
  `MADDPG`): the long store of capacity 1000000, the short store of
  capacity 1, `remember`, and the two learning-step gates.
* The batch-target fragment of `MADDPG.learn` is embedded over `ℝ` with the
  networks of the agents passed in as functions (`input_dims = n_actions = 1`,
  as the column handling in `learn` assumes: each column is a scalar).
* `Agent.choose_action`, `Agent.update_network_parameters` and the actor
  network of `refactoring/agent.py` / `refactoring/networks.py` are embedded
  over `ℝ`, with random draws passed in as explicit parameters.
-/

/- ### Replay buffer (src/buffer.py) -/

structure ReplayBuffer (α : Type) where
  mem_size : ℕ
  mem_cntr : ℕ
  mem : List α

/-- `ReplayBuffer.__init__`: `mem_cntr = 0` and every array is a zero array of
`max_size` rows (`np.zeros`), combined here into `List.replicate max_size zero`. -/
def ReplayBuffer.init (max_size : ℕ) (zero : α) : ReplayBuffer α :=
  ⟨max_size, 0, List.replicate max_size zero⟩

/-- `ReplayBuffer.store_transition`: `index = self.mem_cntr % self.mem_size`;
each array is written at `index`; `self.mem_cntr += 1`. -/
def ReplayBuffer.store_transition (b : ReplayBuffer α) (t : α) : ReplayBuffer α :=
  { b with
    mem := b.mem.set (b.mem_cntr % b.mem_size) t
    mem_cntr := b.mem_cntr + 1 }

/-- Repeated `store_transition` over a list of transitions, oldest first. -/
def ReplayBuffer.storeAll (b : ReplayBuffer α) (ts : List α) : ReplayBuffer α :=
  ts.foldl ReplayBuffer.store_transition b

/-- `max_mem = min(self.mem_cntr, self.mem_size)` of `sample_buffer`. -/
def ReplayBuffer.max_mem (b : ReplayBuffer α) : ℕ :=
  min b.mem_cntr b.mem_size

/-- `ReplayBuffer.sample_buffer`: `batch = np.random.choice(max_mem, batch_size)`
draws `batch_size` indices below `max_mem`; the random draw is passed in as the
index list `batch`, and the result is the rows of the arrays at those indices. -/
def ReplayBuffer.sample_buffer [Inhabited α] (b : ReplayBuffer α) (batch : List ℕ) : List α :=
  batch.map fun i => b.mem.getD i default

/-- The support of `np.random.choice(max_mem, batch_size)`: every drawn index
is below `max_mem`. -/
def ReplayBuffer.validBatchIdx (b : ReplayBuffer α) (batch : List ℕ) : Prop :=
  ∀ i ∈ batch, i < b.max_mem

/-- `ReplayBuffer.sample_last_buffer`: after `if self.mem_cntr < batch_size:
batch_size = self.mem_cntr`, every array is sliced as
`arr[self.mem_cntr - batch_size : self.mem_cntr]`.  A python slice `arr[a:b]`
with `0 ≤ a ≤ b` clamps both ends to the array length, which is exactly
`(arr.drop a).take (b - a)`. -/
def ReplayBuffer.sample_last_buffer (b : ReplayBuffer α) (batch_size : ℕ) : List α :=
  let bs := if b.mem_cntr < batch_size then b.mem_cntr else batch_size
  (b.mem.drop (b.mem_cntr - bs)).take bs

/- ### MADDPG coordinator memory (src/maddpg.py) -/

structure MADDPGMem (α : Type) where
  batch_size : ℕ
  memory : ReplayBuffer α
  short_memory : ReplayBuffer α

/-- `MADDPG.__init__`: `self.max_size = 1000000`;
`self.memory = ReplayBuffer(self.max_size, ...)`;
`self.short_memory = ReplayBuffer(1, ...)`; `self.batch_size = BS`. -/
def MADDPGMem.init (BS : ℕ) (zero : α) : MADDPGMem α :=
  ⟨BS, ReplayBuffer.init 1000000 zero, ReplayBuffer.init 1 zero⟩

/-- `MADDPG.remember`: stores the same transition in both stores. -/
def MADDPGMem.remember (m : MADDPGMem α) (t : α) : MADDPGMem α :=
  { m with
    memory := m.memory.store_transition t
    short_memory := m.short_memory.store_transition t }

/-- Repeated `remember`, oldest transition first. -/
def MADDPGMem.rememberAll (m : MADDPGMem α) (ts : List α) : MADDPGMem α :=
  ts.foldl MADDPGMem.remember m

/-- Gate of the long-memory part of `MADDPG.learn` (line 41):
`if self.memory.mem_cntr < self.batch_size: return` does not fire. -/
def MADDPGMem.longGatePasses (m : MADDPGMem α) : Prop :=
  ¬ (m.memory.mem_cntr < m.batch_size)

/-- Gate of the short-memory part of `MADDPG.learn` (line 136):
`if self.short_memory.mem_cntr < self.batch_size: return` does not fire. -/
def MADDPGMem.shortGatePasses (m : MADDPGMem α) : Prop :=
  ¬ (m.short_memory.mem_cntr < m.batch_size)

/-- The short-memory branch of `MADDPG.learn` executes exactly when the long
branch did not return early and the short gate passes as well. -/
def MADDPGMem.shortBranchRuns (m : MADDPGMem α) : Prop :=
  m.longGatePasses ∧ m.shortGatePasses

/- ### The batch-target fragment of MADDPG.learn, over ℝ -/

/-- One sampled row of the five buffer arrays (`input_dims = n_actions = 1`,
which is what `learn`'s per-column slicing `others_states[:, i].reshape(-1,1)`
assumes: column `i` of `others_states` is other agent number `i`'s scalar
observation). -/
structure Sample where
  state : ℝ
  action : ℝ
  reward : ℝ
  others_states : List ℝ
  others_actions : List ℝ

def dfltSample : Sample := ⟨0, 0, 0, [], []⟩

/-- The transfer-learning augmentation (`if flag:` blocks of `learn`): the
first column is tiled `num_tiles` times and appended after the original
columns (`np.concatenate([xs, np.tile(xs[:, 0:1], (1, num_tiles))], axis=1)`). -/
def tileAug (flag : Bool) (num_tiles : ℕ) (cols : List ℝ) : List ℝ :=
  if flag then cols ++ List.replicate num_tiles (cols.getD 0 0) else cols

/-- `indexes = list(range(self.num_agents)); indexes.remove(idx)` of `learn`:
`list.remove` deletes the first occurrence, which is `List.erase`. -/
def otherIndexes (n_agents idx : ℕ) : List ℕ :=
  (List.range n_agents).erase idx

/-- The `target_actions_list` loop of `learn`, for one sampled row: for each
column `i < num_columns = n_agents - 1`, feed column `i` of `others_states`
through `self.agents[indexes[i]].target_actor.forward`, and concatenate the
results in column order (`T.cat(target_actions_list, dim=1)`).
`target_actor_of j` is agent `j`'s target-actor forward on a scalar column. -/
def othersTargetActionsRow (target_actor_of : ℕ → ℝ → ℝ) (n_agents idx : ℕ)
    (osRow : List ℝ) : List ℝ :=
  (List.range (n_agents - 1)).map fun i =>
    target_actor_of ((otherIndexes n_agents idx).getD i 0) (osRow.getD i 0)

/-- The networks of agent `idx` that the target computation of `learn` reads:
its own target actor and target critic, plus every agent's target actor
indexed by agent number (`self.agents[j].target_actor`). -/
structure LearnView where
  gamma : ℝ
  target_actor_i : ℝ → ℝ
  target_critic_i : ℝ → ℝ → List ℝ → List ℝ → ℝ
  target_actor_of : ℕ → ℝ → ℝ

/-- Row `j` of `critic_value_ = agent.target_critic.forward(state,
target_actions, others_states, others_target_actions)` where
`target_actions = agent.target_actor.forward(state)` and the `others` tensors
are the (possibly flag-augmented) sampled columns. -/
def criticValueTargetRow (v : LearnView) (n_agents idx : ℕ) (flag : Bool)
    (num_tiles : ℕ) (s : Sample) : ℝ :=
  let osAug := tileAug flag num_tiles s.others_states
  let otaAug := tileAug flag num_tiles (othersTargetActionsRow v.target_actor_of n_agents idx osAug)
  v.target_critic_i s.state (v.target_actor_i s.state) osAug otaAug

/-- The target list of `learn`:
`target = []; for j in range(self.batch_size): target.append(reward[j] +
self.gamma * critic_value_[j])` (the sampled batch has `batch_size` rows, so
the loop bound is the batch length). -/
def learnTargets (v : LearnView) (n_agents idx : ℕ) (flag : Bool)
    (num_tiles : ℕ) (batch : List Sample) : List ℝ :=
  let critic_value_ := batch.map (criticValueTargetRow v n_agents idx flag num_tiles)
  (List.range batch.length).map fun j =>
    (batch.getD j dfltSample).reward + v.gamma * critic_value_.getD j 0

/- ### Agent parameters and the soft update (refactoring/agent.py) -/

/-- The four parameter vectors of an agent's networks, flattened: `zip(...)`
over the parameter tensors becomes `zipWith` over flattened lists. -/
structure AgentParams where
  tau : ℝ
  critic_params : List ℝ
  actor_params : List ℝ
  target_critic_params : List ℝ
  target_actor_params : List ℝ

/-- One `zip` loop of `update_network_parameters`:
`target_param.data.copy_(tau * param.data + (1 - tau) * target_param.data)`. -/
def soft_update (t : ℝ) (live target : List ℝ) : List ℝ :=
  List.zipWith (fun p tp => t * p + (1 - t) * tp) live target

/-- `Agent.update_network_parameters(tau=None)`: `if tau is None: tau = self.tau`,
then both target parameter vectors are soft-updated. -/
def update_network_parameters (a : AgentParams) (tau? : Option ℝ) : AgentParams :=
  let t := tau?.getD a.tau
  { a with
    target_critic_params := soft_update t a.critic_params a.target_critic_params
    target_actor_params := soft_update t a.actor_params a.target_actor_params }

/-- The tail of `Agent.__init__`: after the four networks are built it calls
`self.update_network_parameters(tau=1)` exactly once. -/
def Agent.buildParams (tau : ℝ) (c act tc ta : List ℝ) : AgentParams :=
  update_network_parameters ⟨tau, c, act, tc, ta⟩ (some 1)

/- ### Actor network and action selection (refactoring/networks.py, agent.py) -/

/-- The three `nn.Linear` layers of `ActorNetwork` (`fc1`, `fc2`, `mu`),
each as weight rows plus a bias vector. -/
structure ActorNet where
  w1 : List (List ℝ)
  b1 : List ℝ
  w2 : List (List ℝ)
  b2 : List ℝ
  w3 : List (List ℝ)
  b3 : List ℝ

def dotprod (xs ys : List ℝ) : ℝ :=
  (List.zipWith (· * ·) xs ys).sum

/-- `nn.Linear`: output `i` is `⟨weight row i, input⟩ + bias i`. -/
def linearLayer (w : List (List ℝ)) (b : List ℝ) (x : List ℝ) : List ℝ :=
  List.zipWith (fun row bi => dotprod row x + bi) w b

/-- `F.relu`. -/
def relu (x : ℝ) : ℝ := max x 0

/-- `T.sigmoid`. -/
noncomputable def sigmoid (x : ℝ) : ℝ := 1 / (1 + Real.exp (-x))

/-- `ActorNetwork.forward`: `x = F.relu(self.fc1(state)); x = F.relu(self.fc2(x));
return T.sigmoid(self.mu(x))`. -/
noncomputable def actorForward (net : ActorNet) (x : List ℝ) : List ℝ :=
  (linearLayer net.w3 net.b3
    ((linearLayer net.w2 net.b2
      ((linearLayer net.w1 net.b1 x).map relu)).map relu)).map sigmoid

/-- `Tensor.clamp(0, 1)`, elementwise. -/
noncomputable def clamp01 (x : ℝ) : ℝ := min (max x 0) 1

/-- `decay = 1 - (episode / self.total_episodes)` of `Agent.choose_action`
(line 81).  There is no clamping in the source. -/
noncomputable def noiseDecay (episode total_eps : ℕ) : ℝ :=
  1 - (episode : ℝ) / (total_eps : ℝ)

/-- Modelled from the spec: the decay the specification describes,
`decay = max(0, 1 - episode_index/total_episodes)`, used to compare the
specification's description with the code's `noiseDecay`. -/
noncomputable def specNoiseDecay (episode total_eps : ℕ) : ℝ :=
  max 0 (1 - (episode : ℝ) / (total_eps : ℝ))

/-- `Agent.choose_action`: forward the observation through the actor; if not
`evaluation`, add `noise * decay` (the same scalar draw
`np.random.normal(0, self.noise_std)` is broadcast to every component) and
clamp the result to `[0, 1]`.  In the `evaluation` branch nothing is added and
nothing is clamped.  The normal draw is the explicit parameter `noiseDraw`. -/
noncomputable def choose_action (net : ActorNet) (obs : List ℝ)
    (episode total_eps : ℕ) (noiseDraw : ℝ) (evaluation : Bool) : List ℝ :=
  let action := actorForward net obs
  if evaluation then action
  else action.map fun a => clamp01 (a + noiseDraw * noiseDecay episode total_eps)

/-- An all-zero 1-1-1-1 actor network (used as a concrete instance). -/
def zeroActorNet : ActorNet := ⟨[[0]], [0], [[0]], [0], [[0]], [0]⟩

/- ### Layer initialization (refactoring/networks.py, ActorNetwork._init_layer) -/

/-- The shape of an `nn.Linear(in_features, out_features)` layer.  Its weight
tensor has shape `(out_features, in_features)`. -/
structure LinearShape where
  in_features : ℕ
  out_features : ℕ

/-- `layer.weight.data.size()[0]` — the first dimension of the weight tensor
of `nn.Linear`, which is `out_features`. -/
def weight_size0 (l : LinearShape) : ℕ := l.out_features

/-- `_init_layer`: `fan_in = layer.weight.data.size()[0];
limit = scale / np.sqrt(fan_in)`. -/
noncomputable def init_limit (l : LinearShape) (scale : ℝ) : ℝ :=
  scale / Real.sqrt (weight_size0 l)

/-- The three `_init_layer` calls of `ActorNetwork.__init__`, with the layer
shapes of `fc1 = Linear(input_dims, fc1_dims)`, `fc2 = Linear(fc1_dims,
fc2_dims)`, `mu = Linear(fc2_dims, n_actions)` and their `scale` arguments
(default `1.0` for `fc1` and `fc2`, `0.003` for `mu`). -/
def actorInitCalls (input_dims fc1_dims fc2_dims n_actions : ℕ) : List (LinearShape × ℝ) :=
  [(⟨input_dims, fc1_dims⟩, 1), (⟨fc1_dims, fc2_dims⟩, 1), (⟨fc2_dims, n_actions⟩, 0.003)]

/-- The support of `T.nn.init.uniform_(x, -limit, limit)` applied by
`_init_layer` to the weight rows and the bias of a layer: every entry lies in
`[-limit, limit]`. -/
noncomputable def initDrawInSupport (l : LinearShape) (scale : ℝ)
    (w : List (List ℝ)) (b : List ℝ) : Prop :=
  (∀ row ∈ w, ∀ x ∈ row, -init_limit l scale ≤ x ∧ x ≤ init_limit l scale) ∧
  (∀ x ∈ b, -init_limit l scale ≤ x ∧ x ≤ init_limit l scale)

/- ### Helper lemmas -/

lemma storeAll_append (b : ReplayBuffer α) (ts us : List α) :
    b.storeAll (ts ++ us) = (b.storeAll ts).storeAll us := by
  simp [ReplayBuffer.storeAll]

lemma init_mem_cntr (ms : ℕ) (zero : α) : (ReplayBuffer.init ms zero).mem_cntr = 0 := rfl

lemma init_mem_size (ms : ℕ) (zero : α) : (ReplayBuffer.init ms zero).mem_size = ms := rfl

lemma init_mem_length (ms : ℕ) (zero : α) : (ReplayBuffer.init ms zero).mem.length = ms :=
  List.length_replicate ms zero

lemma mInit_short (BS : ℕ) (zero : α) :
    (MADDPGMem.init BS zero).short_memory = ReplayBuffer.init 1 zero := rfl

lemma mInit_long (BS : ℕ) (zero : α) :
    (MADDPGMem.init BS zero).memory = ReplayBuffer.init 1000000 zero := rfl

lemma mInit_batch_size (BS : ℕ) (zero : α) : (MADDPGMem.init BS zero).batch_size = BS := rfl

lemma store_mem_cntr (b : ReplayBuffer α) (t : α) :
    (b.store_transition t).mem_cntr = b.mem_cntr + 1 := rfl

lemma store_mem_size (b : ReplayBuffer α) (t : α) :
    (b.store_transition t).mem_size = b.mem_size := rfl

lemma store_mem_length (b : ReplayBuffer α) (t : α) :
    (b.store_transition t).mem.length = b.mem.length := by
  simp [ReplayBuffer.store_transition]

lemma storeAll_mem_cntr (ts : List α) :
    ∀ (b : ReplayBuffer α), (b.storeAll ts).mem_cntr = b.mem_cntr + ts.length := by
  induction ts with
  | nil => intro b; simp [ReplayBuffer.storeAll]
  | cons t ts ih =>
      intro b
      have h := ih (b.store_transition t)
      simp only [ReplayBuffer.storeAll] at h ⊢
      simp only [List.foldl_cons, h, store_mem_cntr, List.length_cons]
      omega

lemma storeAll_mem_size (ts : List α) :
    ∀ (b : ReplayBuffer α), (b.storeAll ts).mem_size = b.mem_size := by
  induction ts with
  | nil => intro b; rfl
  | cons t ts ih =>
      intro b
      have h := ih (b.store_transition t)
      simp only [ReplayBuffer.storeAll, List.foldl_cons] at h ⊢
      simp [h, store_mem_size]

lemma storeAll_mem_length (ts : List α) :
    ∀ (b : ReplayBuffer α), (b.storeAll ts).mem.length = b.mem.length := by
  induction ts with
  | nil => intro b; rfl
  | cons t ts ih =>
      intro b
      have h := ih (b.store_transition t)
      simp only [ReplayBuffer.storeAll, List.foldl_cons] at h ⊢
      simp [h, store_mem_length]

lemma cap1_store (b : ReplayBuffer α) (t : α) (h1 : b.mem_size = 1)
    (h2 : b.mem.length = 1) : (b.store_transition t).mem = [t] := by
  obtain ⟨a, ha⟩ := List.length_eq_one.mp h2
  simp [ReplayBuffer.store_transition, h1, ha, Nat.mod_one]

lemma cap1_storeAll_snoc (zero x : α) (ts : List α) :
    ((ReplayBuffer.init 1 zero).storeAll (ts ++ [x])).mem = [x] := by
  rw [storeAll_append]
  have hsize : ((ReplayBuffer.init 1 zero).storeAll ts).mem_size = 1 := by
    rw [storeAll_mem_size]; rfl
  have hlen : ((ReplayBuffer.init 1 zero).storeAll ts).mem.length = 1 := by
    rw [storeAll_mem_length]; simp [ReplayBuffer.init]
  show (((ReplayBuffer.init 1 zero).storeAll ts).store_transition x).mem = [x]
  exact cap1_store _ x hsize hlen

lemma rememberAll_short (ts : List α) :
    ∀ (m : MADDPGMem α), (m.rememberAll ts).short_memory = m.short_memory.storeAll ts := by
  induction ts with
  | nil => intro m; rfl
  | cons t ts ih =>
      intro m
      have h := ih (m.remember t)
      simp only [MADDPGMem.rememberAll, ReplayBuffer.storeAll, List.foldl_cons] at h ⊢
      exact h

lemma rememberAll_long (ts : List α) :
    ∀ (m : MADDPGMem α), (m.rememberAll ts).memory = m.memory.storeAll ts := by
  induction ts with
  | nil => intro m; rfl
  | cons t ts ih =>
      intro m
      have h := ih (m.remember t)
      simp only [MADDPGMem.rememberAll, ReplayBuffer.storeAll, List.foldl_cons] at h ⊢
      exact h

lemma rememberAll_batch_size (ts : List α) :
    ∀ (m : MADDPGMem α), (m.rememberAll ts).batch_size = m.batch_size := by
  induction ts with
  | nil => intro m; rfl
  | cons t ts ih =>
      intro m
      have h := ih (m.remember t)
      simp only [MADDPGMem.rememberAll, List.foldl_cons] at h ⊢
      exact h

/- ### Claim theorems: replay stores -/

/-- C8: `store_transition` increments the counter by exactly one and writes the
transition at index `counter mod capacity`; storing a whole list adds its
length to the counter (the counter never resets); and the capacity-1 store
holds exactly the most recently stored transition once at least one has been
stored. -/
theorem C8_store_invariants :
    ∀ (α : Type) (b : ReplayBuffer α) (t zero : α) (ts : List α) (x : α),
      ((b.store_transition t).mem_cntr = b.mem_cntr + 1) ∧
      ((b.store_transition t).mem = b.mem.set (b.mem_cntr % b.mem_size) t) ∧
      (b.mem.length = b.mem_size → 0 < b.mem_size →
        (b.store_transition t).mem.getD (b.mem_cntr % b.mem_size) zero = t) ∧
      ((b.storeAll ts).mem_cntr = b.mem_cntr + ts.length) ∧
      (((ReplayBuffer.init 1 zero).storeAll (ts ++ [x])).mem = [x]) := by
  intro α b t zero ts x
  refine ⟨rfl, rfl, ?_, storeAll_mem_cntr ts b, cap1_storeAll_snoc zero x ts⟩
  intro hlen hpos
  have hidx : b.mem_cntr % b.mem_size < b.mem.length := by
    rw [hlen]; exact Nat.mod_lt _ hpos
  have hidx' : b.mem_cntr % b.mem_size < (b.mem.set (b.mem_cntr % b.mem_size) t).length := by
    simpa using hidx
  show (b.mem.set (b.mem_cntr % b.mem_size) t).getD (b.mem_cntr % b.mem_size) zero = t
  rw [List.getD_eq_getElem?_getD, List.getElem?_eq_getElem hidx', Option.getD_some,
    List.getElem_set_self]

/-- C8 witness: concrete evaluation of the store invariants for a capacity-2
store and a capacity-1 store. -/
theorem C8_store_invariants_witness :
    (((ReplayBuffer.init 2 (0 : ℕ)).store_transition 5).mem_cntr
        = (ReplayBuffer.init 2 (0 : ℕ)).mem_cntr + 1) ∧
    (((ReplayBuffer.init 2 (0 : ℕ)).store_transition 5).mem.getD
        ((ReplayBuffer.init 2 (0 : ℕ)).mem_cntr % (ReplayBuffer.init 2 (0 : ℕ)).mem_size) 0 = 5) ∧
    (((ReplayBuffer.init 1 (0 : ℕ)).storeAll ([1, 2] ++ [9])).mem = [9]) := by
  obtain ⟨h1, _, h3, _, h5⟩ :=
    C8_store_invariants ℕ (ReplayBuffer.init 2 0) 5 0 [1, 2] 9
  exact ⟨h1, h3 (by decide) (by decide), h5⟩

/-- C2: evaluation of `sample_last_buffer` at the failing input.  A capacity-1
store holds `[7]` (the most recent transition) after storing `5` then `7`, but
`sample_last_buffer 1` returns the empty batch because the slice
`arr[mem_cntr - 1 : mem_cntr] = arr[1:2]` lies beyond the length-1 array; with
a single store (`counter = capacity`) it still returns the stored transition. -/
theorem C2_sample_last_after_wraparound :
    (((ReplayBuffer.init 1 (0 : ℕ)).storeAll [5, 7]).mem = [7]) ∧
    (((ReplayBuffer.init 1 (0 : ℕ)).storeAll [5, 7]).mem_cntr = 2) ∧
    (((ReplayBuffer.init 1 (0 : ℕ)).storeAll [5, 7]).sample_last_buffer 1 = []) ∧
    (((ReplayBuffer.init 1 (0 : ℕ)).storeAll [5]).sample_last_buffer 1 = [5]) := by
  exact ⟨rfl, rfl, rfl, rfl⟩

/-- C1 counterexample: with `batch_size = 2 > 1`, after two `remember` calls
the short store's counter is `2` (it does not saturate at `1`), and the
short-memory gate `counter >= batch_size` holds, so the short-horizon branch
does execute. -/
theorem C1_counterexample_gate_holds :
    ((MADDPGMem.init 2 (0 : ℕ)).rememberAll [5, 7]).short_memory.mem_cntr = 2 ∧
    ((MADDPGMem.init 2 (0 : ℕ)).rememberAll [5, 7]).shortGatePasses ∧
    ((MADDPGMem.init 2 (0 : ℕ)).rememberAll [5, 7]).shortBranchRuns := by
  have hshort : ((MADDPGMem.init 2 (0 : ℕ)).rememberAll [5, 7]).short_memory.mem_cntr = 2 := by
    rw [rememberAll_short, storeAll_mem_cntr, mInit_short, init_mem_cntr]
    rfl
  have hlong : ((MADDPGMem.init 2 (0 : ℕ)).rememberAll [5, 7]).memory.mem_cntr = 2 := by
    rw [rememberAll_long, storeAll_mem_cntr, mInit_long, init_mem_cntr]
    rfl
  have hbs : ((MADDPGMem.init 2 (0 : ℕ)).rememberAll [5, 7]).batch_size = 2 :=
    rememberAll_batch_size [5, 7] _
  refine ⟨hshort, ?_, ?_, ?_⟩
  · unfold MADDPGMem.shortGatePasses
    rw [hshort, hbs]
    omega
  · unfold MADDPGMem.longGatePasses
    rw [hlong, hbs]
    omega
  · unfold MADDPGMem.shortGatePasses
    rw [hshort, hbs]
    omega

/-- C1 amended: the capacity-1 short store's counter counts every stored
transition (it never saturates), and the short-horizon branch of
`MADDPG.learn` executes exactly when at least `batch_size` transitions have
been remembered — also when `batch_size > 1`. -/
theorem C1_amended_short_branch_fires :
    ∀ (α : Type) (zero : α) (BS : ℕ) (ts : List α),
      (((MADDPGMem.init BS zero).rememberAll ts).short_memory.mem_cntr = ts.length) ∧
      (((MADDPGMem.init BS zero).rememberAll ts).shortGatePasses ↔ BS ≤ ts.length) ∧
      (((MADDPGMem.init BS zero).rememberAll ts).shortBranchRuns ↔ BS ≤ ts.length) := by
  intro α zero BS ts
  have hshort : ((MADDPGMem.init BS zero).rememberAll ts).short_memory.mem_cntr = ts.length := by
    rw [rememberAll_short, storeAll_mem_cntr, mInit_short, init_mem_cntr, Nat.zero_add]
  have hlong : ((MADDPGMem.init BS zero).rememberAll ts).memory.mem_cntr = ts.length := by
    rw [rememberAll_long, storeAll_mem_cntr, mInit_long, init_mem_cntr, Nat.zero_add]
  have hbs : ((MADDPGMem.init BS zero).rememberAll ts).batch_size = BS :=
    rememberAll_batch_size ts _
  refine ⟨hshort, ?_, ?_⟩
  · unfold MADDPGMem.shortGatePasses
    rw [hshort, hbs, Nat.not_lt]
  · unfold MADDPGMem.shortBranchRuns MADDPGMem.longGatePasses MADDPGMem.shortGatePasses
    rw [hshort, hlong, hbs, Nat.not_lt, and_self]

lemma map_getD_singleton [Inhabited α] (x : α) :
    ∀ (idxs : List ℕ), (∀ i ∈ idxs, i < 1) →
      (idxs.map fun i => [x].getD i default) = List.replicate idxs.length x := by
  intro idxs
  induction idxs with
  | nil => intro _; rfl
  | cons i idxs ih =>
      intro h
      have hi : i = 0 := Nat.lt_one_iff.mp (h i (List.mem_cons_self i idxs))
      have ht := ih fun j hj => h j (List.mem_cons_of_mem i hj)
      simp only [List.map_cons, List.length_cons, List.replicate_succ, hi, List.getD_cons_zero]
      exact congrArg _ ht

/-- C10: once the short-horizon branch of `MADDPG.learn` executes, its batch is
drawn by `sample_buffer`, whose valid index range for the capacity-1 short
store is `{0}` (`max_mem = min(counter, 1) = 1`); hence every valid random
draw of `batch_size` indices yields `batch_size` identical copies of the most
recently stored transition. -/
theorem C10_short_batch_is_copies_of_most_recent :
    ∀ (α : Type) [inst : Inhabited α] (zero : α) (BS : ℕ) (ts : List α) (x : α) (idxs : List ℕ),
      (((MADDPGMem.init BS zero).rememberAll (ts ++ [x])).short_memory.max_mem = 1) ∧
      (((MADDPGMem.init BS zero).rememberAll (ts ++ [x])).short_memory.validBatchIdx idxs →
        idxs.length = BS →
        ((MADDPGMem.init BS zero).rememberAll (ts ++ [x])).short_memory.sample_buffer idxs
          = List.replicate BS x) := by
  intro α inst zero BS ts x idxs
  have hbuf : ((MADDPGMem.init BS zero).rememberAll (ts ++ [x])).short_memory
      = (ReplayBuffer.init 1 zero).storeAll (ts ++ [x]) := by
    rw [rememberAll_short, mInit_short]
  have hcntr : ((ReplayBuffer.init 1 zero).storeAll (ts ++ [x])).mem_cntr = ts.length + 1 := by
    rw [storeAll_mem_cntr, init_mem_cntr]
    simp
  have hsize : ((ReplayBuffer.init 1 zero).storeAll (ts ++ [x])).mem_size = 1 := by
    rw [storeAll_mem_size, init_mem_size]
  have hmax : ((ReplayBuffer.init 1 zero).storeAll (ts ++ [x])).max_mem = 1 := by
    unfold ReplayBuffer.max_mem
    rw [hcntr, hsize]
    omega
  have hmem : ((ReplayBuffer.init 1 zero).storeAll (ts ++ [x])).mem = [x] :=
    cap1_storeAll_snoc zero x ts
  refine ⟨by rw [hbuf, hmax], ?_⟩
  intro hvalid hlen
  rw [hbuf] at hvalid ⊢
  unfold ReplayBuffer.validBatchIdx at hvalid
  rw [hmax] at hvalid
  unfold ReplayBuffer.sample_buffer
  rw [hmem, ← hlen]
  exact map_getD_singleton x idxs hvalid

/-- C10 witness: two remembered transitions `4` then `9`, `batch_size = 2`,
random draw `[0, 0]`: the short-store batch is two copies of `9`. -/
theorem C10_short_batch_witness :
    (((MADDPGMem.init 2 (0 : ℕ)).rememberAll ([4] ++ [9])).short_memory.max_mem = 1) ∧
    (((MADDPGMem.init 2 (0 : ℕ)).rememberAll ([4] ++ [9])).short_memory.sample_buffer [0, 0]
      = List.replicate 2 9) := by
  obtain ⟨h1, h2⟩ := C10_short_batch_is_copies_of_most_recent ℕ 0 2 [4] 9 [0, 0]
  refine ⟨h1, h2 ?_ rfl⟩
  unfold ReplayBuffer.validBatchIdx
  rw [h1]
  decide

/- ### Helper lemmas: indexed reads of mapped lists -/

lemma getD_map_range {β : Type} (f : ℕ → β) (n j : ℕ) (hj : j < n) (d : β) :
    ((List.range n).map f).getD j d = f j := by
  rw [List.getD_eq_getElem?_getD, List.getElem?_map, List.getElem?_range hj]
  rfl

lemma getD_map {β γ : Type} (f : β → γ) (l : List β) (j : ℕ) (hj : j < l.length)
    (d : γ) (d' : β) : (l.map f).getD j d = f (l.getD j d') := by
  rw [List.getD_eq_getElem?_getD, List.getElem?_map, List.getElem?_eq_getElem hj,
    List.getD_eq_getElem?_getD, List.getElem?_eq_getElem hj]
  rfl

lemma getD_zipWith (f : ℝ → ℝ → ℝ) :
    ∀ (l l' : List ℝ) (i : ℕ), i < l.length → i < l'.length →
      (List.zipWith f l l').getD i 0 = f (l.getD i 0) (l'.getD i 0)
  | [], _, i, h, _ => absurd h (by simp)
  | _ :: _, [], i, _, h' => absurd h' (by simp)
  | a :: l, b :: l', 0, _, _ => rfl
  | a :: l, b :: l', i + 1, h, h' => by
      simp only [List.zipWith_cons_cons, List.getD_cons_succ]
      exact getD_zipWith f l l' i (by simpa using h) (by simpa using h')

/- ### Claim theorems: the learning-step target computation -/

/-- C3: the `j`-th critic regression target of the learning step equals
`reward_j + gamma * target_critic_i(state_j, target_actor_i(state_j),
others_states_j, others_target_actions_j)`: the bootstrap input of the target
critic is the same sampled `state_j` (a `Sample` carries no successor state),
and no terminal/done factor appears in the formula. -/
theorem C3_critic_target_formula :
    ∀ (v : LearnView) (n_agents idx : ℕ) (flag : Bool) (num_tiles : ℕ)
      (batch : List Sample) (j : ℕ), j < batch.length →
      (learnTargets v n_agents idx flag num_tiles batch).getD j 0 =
        (batch.getD j dfltSample).reward + v.gamma *
          v.target_critic_i (batch.getD j dfltSample).state
            (v.target_actor_i (batch.getD j dfltSample).state)
            (tileAug flag num_tiles (batch.getD j dfltSample).others_states)
            (tileAug flag num_tiles
              (othersTargetActionsRow v.target_actor_of n_agents idx
                (tileAug flag num_tiles (batch.getD j dfltSample).others_states))) := by
  intro v n_agents idx flag num_tiles batch j hj
  unfold learnTargets
  rw [getD_map_range _ _ j hj]
  rw [getD_map (criticValueTargetRow v n_agents idx flag num_tiles) batch j hj 0 dfltSample]
  unfold criticValueTargetRow
  rfl

/-- C3 witness: a concrete one-sample batch with two agents evaluates to the
claimed formula. -/
theorem C3_critic_target_witness :
    (learnTargets ⟨1, fun s => s, fun s a os oa => s + a + os.sum + oa.sum,
        fun j x => x + (j : ℝ)⟩ 2 0 false 0 [⟨1, 2, 3, [4], [5]⟩]).getD 0 0 = 14 := by
  have h := C3_critic_target_formula
    ⟨1, fun s => s, fun s a os oa => s + a + os.sum + oa.sum, fun j x => x + (j : ℝ)⟩
    2 0 false 0 [⟨1, 2, 3, [4], [5]⟩] 0 (by simp)
  rw [h]
  show (3 : ℝ) + 1 * ((1 : ℝ) + 1 + [(4 : ℝ)].sum +
    (othersTargetActionsRow (fun j x => x + (j : ℝ)) 2 0 [(4 : ℝ)]).sum) = 14
  have hrow : othersTargetActionsRow (fun j x => x + (j : ℝ)) 2 0 [(4 : ℝ)] = [5] := by
    unfold othersTargetActionsRow otherIndexes
    norm_num [List.range_succ]
  rw [hrow]
  norm_num

/-- C5: in the learning step for agent `idx` among `n_agents` agents, the
other-agent index list is exactly the agent indices below `n_agents` with
`idx` removed, in ascending order; column `k` of the sampled `others_states`
(also under the transfer-learning augmentation) is fed through the target
actor of the `k`-th such other agent, and the per-column results are
concatenated in that same column order. -/
theorem C5_column_routing :
    ∀ (ta : ℕ → ℝ → ℝ) (n_agents idx : ℕ) (osRow : List ℝ) (flag : Bool) (num_tiles : ℕ),
      idx < n_agents → osRow.length = n_agents - 1 →
      ((otherIndexes n_agents idx).length = n_agents - 1) ∧
      (List.Sorted (· < ·) (otherIndexes n_agents idx)) ∧
      (∀ j, j ∈ otherIndexes n_agents idx ↔ j < n_agents ∧ j ≠ idx) ∧
      ((othersTargetActionsRow ta n_agents idx osRow).length = n_agents - 1) ∧
      (∀ k, k < n_agents - 1 →
        (othersTargetActionsRow ta n_agents idx osRow).getD k 0 =
          ta ((otherIndexes n_agents idx).getD k 0) (osRow.getD k 0)) ∧
      (∀ k, k < n_agents - 1 →
        (tileAug flag num_tiles osRow).getD k 0 = osRow.getD k 0) := by
  intro ta n_agents idx osRow flag num_tiles hidx hlen
  have hmem : idx ∈ List.range n_agents := List.mem_range.mpr hidx
  refine ⟨?_, ?_, ?_, ?_, ?_, ?_⟩
  · unfold otherIndexes
    have := List.length_erase_add_one hmem
    rw [List.length_range] at this
    omega
  · exact List.Pairwise.sublist (List.erase_sublist idx (List.range n_agents))
      (List.sorted_lt_range n_agents)
  · intro j
    unfold otherIndexes
    rw [List.Nodup.mem_erase_iff (List.nodup_range n_agents), List.mem_range, and_comm]
  · unfold othersTargetActionsRow
    simp
  · intro k hk
    unfold othersTargetActionsRow
    rw [getD_map_range _ _ k hk]
  · intro k hk
    unfold tileAug
    cases flag with
    | false => rfl
    | true =>
        simp only [if_pos]
        rw [List.getD_eq_getElem?_getD, List.getElem?_append_left (by omega),
          ← List.getD_eq_getElem?_getD]

/-- C5 witness: three agents, learning agent `1`: the other-agent order is
`[0, 2]`, column `0` goes through agent `0`'s target actor and column `1`
through agent `2`'s, also under the augmentation. -/
theorem C5_column_routing_witness :
    ((otherIndexes 3 1).length = 3 - 1) ∧
    (List.Sorted (· < ·) (otherIndexes 3 1)) ∧
    (∀ j, j ∈ otherIndexes 3 1 ↔ j < 3 ∧ j ≠ 1) ∧
    ((othersTargetActionsRow (fun j x => x + (j : ℝ)) 3 1 [10, 20]).length = 3 - 1) ∧
    (∀ k, k < 3 - 1 →
      (othersTargetActionsRow (fun j x => x + (j : ℝ)) 3 1 [10, 20]).getD k 0 =
        (fun j x => x + (j : ℝ)) ((otherIndexes 3 1).getD k 0) ([(10 : ℝ), 20].getD k 0)) ∧
    (∀ k, k < 3 - 1 → (tileAug true 2 [(10 : ℝ), 20]).getD k 0 = [(10 : ℝ), 20].getD k 0) :=
  C5_column_routing (fun j x => x + (j : ℝ)) 3 1 [10, 20] true 2 (by decide) (by simp)

/- ### Helper lemmas: soft update -/

lemma soft_update_one : ∀ (live target : List ℝ), live.length = target.length →
    soft_update 1 live target = live
  | [], [], _ => rfl
  | [], _ :: _, h => by simp at h
  | _ :: _, [], h => by simp at h
  | p :: l, t :: l', h => by
      simp only [soft_update, List.zipWith_cons_cons]
      refine congrArg₂ List.cons (by ring) ?_
      exact soft_update_one l l' (by simpa using h)

lemma soft_update_zero : ∀ (live target : List ℝ), live.length = target.length →
    soft_update 0 live target = target
  | [], [], _ => rfl
  | [], _ :: _, h => by simp at h
  | _ :: _, [], h => by simp at h
  | p :: l, t :: l', h => by
      simp only [soft_update, List.zipWith_cons_cons]
      refine congrArg₂ List.cons (by ring) ?_
      exact soft_update_zero l l' (by simpa using h)

/- ### Claim theorem: target-network soft update -/

/-- C4: `update_network_parameters` replaces each target parameter of the
critic and of the actor by `tau*live + (1-tau)*target` elementwise; passing no
`tau` uses the agent's configured `tau`; `tau = 1` makes the target parameter
vectors identical to the live ones (and `Agent.__init__` performs exactly this
call once, at construction); `tau = 0` leaves both target vectors unchanged;
the live parameters are never modified. -/
theorem C4_soft_update :
    ∀ (a : AgentParams) (t : ℝ) (i : ℕ) (tau : ℝ) (c act tc ta : List ℝ),
      (update_network_parameters a none = update_network_parameters a (some a.tau)) ∧
      ((update_network_parameters a (some t)).critic_params = a.critic_params) ∧
      ((update_network_parameters a (some t)).actor_params = a.actor_params) ∧
      (i < a.critic_params.length → i < a.target_critic_params.length →
        (update_network_parameters a (some t)).target_critic_params.getD i 0 =
          t * a.critic_params.getD i 0 + (1 - t) * a.target_critic_params.getD i 0) ∧
      (i < a.actor_params.length → i < a.target_actor_params.length →
        (update_network_parameters a (some t)).target_actor_params.getD i 0 =
          t * a.actor_params.getD i 0 + (1 - t) * a.target_actor_params.getD i 0) ∧
      (a.critic_params.length = a.target_critic_params.length →
        (update_network_parameters a (some 1)).target_critic_params = a.critic_params) ∧
      (a.actor_params.length = a.target_actor_params.length →
        (update_network_parameters a (some 1)).target_actor_params = a.actor_params) ∧
      (a.critic_params.length = a.target_critic_params.length →
        (update_network_parameters a (some 0)).target_critic_params = a.target_critic_params) ∧
      (a.actor_params.length = a.target_actor_params.length →
        (update_network_parameters a (some 0)).target_actor_params = a.target_actor_params) ∧
      (c.length = tc.length → (Agent.buildParams tau c act tc ta).target_critic_params = c) ∧
      (act.length = ta.length → (Agent.buildParams tau c act tc ta).target_actor_params = act) := by
  intro a t i tau c act tc ta
  refine ⟨rfl, rfl, rfl, ?_, ?_, ?_, ?_, ?_, ?_, ?_, ?_⟩
  · intro h1 h2
    exact getD_zipWith _ a.critic_params a.target_critic_params i h1 h2
  · intro h1 h2
    exact getD_zipWith _ a.actor_params a.target_actor_params i h1 h2
  · intro h
    exact soft_update_one a.critic_params a.target_critic_params h
  · intro h
    exact soft_update_one a.actor_params a.target_actor_params h
  · intro h
    exact soft_update_zero a.critic_params a.target_critic_params h
  · intro h
    exact soft_update_zero a.actor_params a.target_actor_params h
  · intro h
    exact soft_update_one c tc h
  · intro h
    exact soft_update_one act ta h

/-- C4 witness: a concrete agent with two critic parameters and one actor
parameter, updated with `tau = 1/4`, and a concrete construction. -/
theorem C4_soft_update_witness :
    (update_network_parameters ⟨1/2, [1, 2], [3], [4, 5], [6]⟩ none =
      update_network_parameters ⟨1/2, [1, 2], [3], [4, 5], [6]⟩
        (some (AgentParams.mk (1/2) [1, 2] [3] [4, 5] [6]).tau)) ∧
    ((update_network_parameters ⟨1/2, [1, 2], [3], [4, 5], [6]⟩
        (some (1/4))).target_critic_params.getD 0 0 =
      1/4 * ([(1 : ℝ), 2].getD 0 0) + (1 - 1/4) * ([(4 : ℝ), 5].getD 0 0)) ∧
    ((update_network_parameters ⟨1/2, [1, 2], [3], [4, 5], [6]⟩
        (some 1)).target_critic_params = [1, 2]) ∧
    ((update_network_parameters ⟨1/2, [1, 2], [3], [4, 5], [6]⟩
        (some 0)).target_actor_params = [6]) ∧
    ((Agent.buildParams (1/2) [1, 2] [3] [4, 5] [6]).target_critic_params = [1, 2]) := by
  obtain ⟨h1, _, _, h4, _, h6, _, _, h9, h10, _⟩ :=
    C4_soft_update ⟨1/2, [1, 2], [3], [4, 5], [6]⟩ (1/4) 0 (1/2) [1, 2] [3] [4, 5] [6]
  exact ⟨h1, h4 (by simp) (by simp), h6 (by simp), h9 (by simp), h10 (by simp)⟩

/- ### Helper lemmas: action selection -/

lemma zeroNet_forward : actorForward zeroActorNet [0] = [1 / 2] := by
  have hs : sigmoid 0 = 1 / 2 := by
    unfold sigmoid
    rw [neg_zero, Real.exp_zero]
    norm_num
  simp [actorForward, linearLayer, dotprod, relu, zeroActorNet, hs]

lemma sigmoid_bounds (x : ℝ) : 0 ≤ sigmoid x ∧ sigmoid x ≤ 1 := by
  unfold sigmoid
  have hpos : (0 : ℝ) < 1 + Real.exp (-x) := by positivity
  constructor
  · positivity
  · rw [div_le_one hpos]
    linarith [Real.exp_pos (-x)]

lemma clamp01_bounds (x : ℝ) : 0 ≤ clamp01 x ∧ clamp01 x ≤ 1 := by
  unfold clamp01
  exact ⟨le_min (le_max_right x 0) zero_le_one, min_le_right _ 1⟩

/- ### Claim theorems: action selection -/

/-- C6 counterexample: with `total_episodes = 10` and `episode = 20`, the
claim says no noise is added (decay clamped to 0), so the non-evaluation
action would equal the evaluation action.  On the all-zero network the
evaluation action is `[1/2]` but the non-evaluation action with noise draw
`1/10` is `[2/5]`: the unclamped decay `1 - 20/10 = -1` still injects noise. -/
theorem C6_counterexample_no_clamp :
    choose_action zeroActorNet [0] 20 10 (1 / 10) false ≠
      choose_action zeroActorNet [0] 20 10 (1 / 10) true := by
  have hdecay : noiseDecay 20 10 = -1 := by
    unfold noiseDecay
    norm_num
  have hfalse : choose_action zeroActorNet [0] 20 10 (1 / 10) false = [2 / 5] := by
    unfold choose_action
    rw [if_neg (by simp)]
    rw [zeroNet_forward, hdecay]
    unfold clamp01
    norm_num [max_eq_left, min_eq_left]
  have htrue : choose_action zeroActorNet [0] 20 10 (1 / 10) true = [1 / 2] := by
    unfold choose_action
    rw [if_pos rfl]
    exact zeroNet_forward
  rw [hfalse, htrue]
  intro h
  rw [List.cons.injEq] at h
  have := h.1
  norm_num at this

/-- C6 amended: in `choose_action` without the evaluation flag, the noise
added to every action component is `noiseDraw * decay` with
`decay = 1 - episode/total_episodes`, unclamped.  For `episode ≤
total_episodes` this decay coincides with the specification's
`max(0, 1 - episode/total_episodes)` (so the scale of the zero-mean Gaussian
draw is `noise_std * decay` there), but for `episode > total_episodes` the
decay is negative and noise is still added. -/
theorem C6_amended_noise_decay :
    ∀ (net : ActorNet) (obs : List ℝ) (episode episode' total_eps : ℕ) (noiseDraw : ℝ),
      0 < total_eps → episode ≤ total_eps → total_eps < episode' →
      (choose_action net obs episode total_eps noiseDraw false =
        (actorForward net obs).map fun a =>
          clamp01 (a + noiseDraw * specNoiseDecay episode total_eps)) ∧
      (noiseDecay episode total_eps = specNoiseDecay episode total_eps) ∧
      (noiseDecay episode' total_eps < 0) := by
  intro net obs episode episode' total_eps noiseDraw htot hep hep'
  have htotR : (0 : ℝ) < (total_eps : ℝ) := by exact_mod_cast htot
  have heq : noiseDecay episode total_eps = specNoiseDecay episode total_eps := by
    unfold noiseDecay specNoiseDecay
    rw [max_eq_right]
    rw [sub_nonneg, div_le_one htotR]
    exact_mod_cast hep
  refine ⟨?_, heq, ?_⟩
  · unfold choose_action
    rw [if_neg (by simp), ← heq]
  · unfold noiseDecay
    rw [sub_neg, one_lt_div htotR]
    exact_mod_cast hep'

/-- C6 amended witness: a concrete instance with `episode = 5 ≤ 10` for the
agreement part and `episode' = 20 > 10` for the negative-decay part. -/
theorem C6_amended_noise_decay_witness :
    (choose_action zeroActorNet [0] 5 10 1 false =
      (actorForward zeroActorNet [0]).map fun a => clamp01 (a + 1 * specNoiseDecay 5 10)) ∧
    (noiseDecay 5 10 = specNoiseDecay 5 10) ∧
    (noiseDecay 20 10 < 0) :=
  C6_amended_noise_decay zeroActorNet [0] 5 20 10 1 (by decide) (by decide) (by decide)

/-- C7: every component of the vector returned by `choose_action` lies in
`[0, 1]`, for every observation, episode index, evaluation flag, noise draw
and network weights: with the flag unset the result is clamped to `[0, 1]`,
and with the flag set the components are sigmoid outputs. -/
theorem C7_action_in_unit_interval :
    ∀ (net : ActorNet) (obs : List ℝ) (episode total_eps : ℕ) (noiseDraw : ℝ)
      (evaluation : Bool),
      List.Forall (fun c => 0 ≤ c ∧ c ≤ 1)
        (choose_action net obs episode total_eps noiseDraw evaluation) := by
  intro net obs episode total_eps noiseDraw evaluation
  rw [List.forall_iff_forall_mem]
  intro c hc
  unfold choose_action at hc
  cases evaluation with
  | false =>
      rw [if_neg (by simp)] at hc
      rw [List.mem_map] at hc
      obtain ⟨a, _, rfl⟩ := hc
      exact clamp01_bounds _
  | true =>
      rw [if_pos rfl] at hc
      unfold actorForward at hc
      rw [List.mem_map] at hc
      obtain ⟨y, _, rfl⟩ := hc
      exact sigmoid_bounds y

/- ### Claim theorems: layer initialization -/

/-- C9 counterexample: the first `_init_layer` call of
`ActorNetwork(input_dims=4, fc1_dims=9, ...)` initializes the layer
`Linear(4, 9)` with scale `1`, and its bound is `1/sqrt(9)` — `sqrt` of
`weight.data.size()[0] = out_features` — not `1/sqrt(4) = 1/sqrt(fan_in)` as
the claim states. -/
theorem C9_counterexample_fan_direction :
    ((actorInitCalls 4 9 16 1).getD 0 (⟨0, 0⟩, 0) = ((⟨4, 9⟩ : LinearShape), 1)) ∧
    init_limit ⟨4, 9⟩ 1 ≠ 1 / Real.sqrt (((⟨4, 9⟩ : LinearShape).in_features : ℕ) : ℝ) := by
  refine ⟨rfl, ?_⟩
  have h9 : Real.sqrt ((weight_size0 ⟨4, 9⟩ : ℕ) : ℝ) = 3 := by
    show Real.sqrt ((9 : ℕ) : ℝ) = 3
    rw [show ((9 : ℕ) : ℝ) = 3 ^ 2 by norm_num]
    exact Real.sqrt_sq (by norm_num)
  have h4 : Real.sqrt (((⟨4, 9⟩ : LinearShape).in_features : ℕ) : ℝ) = 2 := by
    show Real.sqrt ((4 : ℕ) : ℝ) = 2
    rw [show ((4 : ℕ) : ℝ) = 2 ^ 2 by norm_num]
    exact Real.sqrt_sq (by norm_num)
  unfold init_limit
  rw [h9, h4]
  norm_num

/-- C9 amended: `_init_layer` draws every weight entry and every bias entry of
a layer from a bounded-uniform distribution whose bound is
`scale / sqrt(out_features)` — the first dimension of the weight tensor
(`fan_out`), not the number of input features — with `scale = 1` for the two
hidden layers and `scale = 0.003` for the output layer. -/
theorem C9_amended_out_features_bound :
    ∀ (input_dims fc1_dims fc2_dims n_actions : ℕ) (l : LinearShape) (scale : ℝ)
      (w : List (List ℝ)) (b : List ℝ),
      ((actorInitCalls input_dims fc1_dims fc2_dims n_actions).map
          (fun p => init_limit p.1 p.2) =
        [1 / Real.sqrt ((fc1_dims : ℕ) : ℝ), 1 / Real.sqrt ((fc2_dims : ℕ) : ℝ),
          (3 / 1000) / Real.sqrt ((n_actions : ℕ) : ℝ)]) ∧
      (initDrawInSupport l scale w b →
        (∀ row ∈ w, ∀ x ∈ row, |x| ≤ scale / Real.sqrt ((l.out_features : ℕ) : ℝ)) ∧
        (∀ x ∈ b, |x| ≤ scale / Real.sqrt ((l.out_features : ℕ) : ℝ))) := by
  intro input_dims fc1_dims fc2_dims n_actions l scale w b
  constructor
  · simp only [actorInitCalls, List.map_cons, List.map_nil, init_limit, weight_size0]
    norm_num
  · intro hsup
    obtain ⟨hw, hb⟩ := hsup
    have hlim : init_limit l scale = scale / Real.sqrt ((l.out_features : ℕ) : ℝ) := rfl
    constructor
    · intro row hrow x hx
      have h := hw row hrow x hx
      rw [hlim] at h
      exact abs_le.mpr h
    · intro x hx
      have h := hb x hx
      rw [hlim] at h
      exact abs_le.mpr h

/-- C9 amended witness: the unit-shape actor layers, and a concrete layer of
shape `Linear(1, 1)` with an in-support draw. -/
theorem C9_amended_out_features_witness :
    ((actorInitCalls 1 1 1 1).map (fun p => init_limit p.1 p.2) =
      [1 / Real.sqrt ((1 : ℕ) : ℝ), 1 / Real.sqrt ((1 : ℕ) : ℝ),
        (3 / 1000) / Real.sqrt ((1 : ℕ) : ℝ)]) ∧
    ((∀ row ∈ [[(0 : ℝ)]], ∀ x ∈ row,
        |x| ≤ 1 / Real.sqrt ((((⟨1, 1⟩ : LinearShape).out_features : ℕ)) : ℝ)) ∧
      (∀ x ∈ [(0 : ℝ)],
        |x| ≤ 1 / Real.sqrt ((((⟨1, 1⟩ : LinearShape).out_features : ℕ)) : ℝ))) := by
  obtain ⟨h1, h2⟩ := C9_amended_out_features_bound 1 1 1 1 ⟨1, 1⟩ 1 [[0]] [0]
  refine ⟨h1, h2 ?_⟩
  constructor
  · intro row hrow x hx
    simp only [List.mem_singleton] at hrow hx
    subst hrow
    simp only [List.mem_singleton] at hx
    subst hx
    constructor <;> norm_num [init_limit, weight_size0, Real.sqrt_one]
  · intro x hx
    simp only [List.mem_singleton] at hx
    subst hx
    constructor <;> norm_num [init_limit, weight_size0, Real.sqrt_one]
